import Mathlib

/-!
Shallow embedding of the mask-my-name tool (src/main.rs).

The program loads an image, builds a text-likelihood mask (OpenCV colour
conversion, thresholding and dilation), extracts candidate text regions
(external contours and their bounding rectangles), recognises each region
with Tesseract, and paints a bar over every region whose recognised text
contains the target string.

External collaborators are modelled as parameters:
  - the OpenCV primitives (cvt_color, in_range, get_structuring_element,
    dilate, find_contours) as a record of abstract functions `CvOps`;
  - the Tesseract engine as a function from an image to an optional
    recognised string (`none` models a failing `get_utf8_text` call).
Everything else is translated from the source.  Machine integers (i32
dimensions, u8 pixel bytes) are far from overflow in every computation the
program performs, so they are modelled as `Nat`; Rust `i32` division on the
non-negative quantities involved agrees with `Nat` division.  Strings are
sequences of Unicode scalar values (`List Nat`); Rust `to_lowercase` is
modelled by its action on the ASCII range, which is the range the
surrounding heuristics (tesseract "eng", period/comma stripping) target.
-/

/-- A Rust string, as its sequence of Unicode scalar values. -/
abbrev RStr := List Nat

/-- The error enum `MaskMyNameError` from src/main.rs (lines 12-26). -/
inductive MaskMyNameError where
  | ImageReadError
  | MaskTextError
  | TessInitError
  | TessGetTextError
  | MaskingBarCreationError
  | NoMatchingString
  deriving DecidableEq, Repr

/-- An OpenCV `Rect`: origin `(x, y)`, extent `width × height`.  The fields
are `i32` in OpenCV but always non-negative here (they come from
`bounding_rect` on image contours). -/
structure Rect where
  x : Nat
  y : Nat
  width : Nat
  height : Nat
  deriving DecidableEq, Repr

/-- An OpenCV `Mat`: dimensions, channel count, and the pixel bytes as a
function of row, column and channel. -/
structure Image where
  rows : Nat
  cols : Nat
  channels : Nat
  data : Nat → Nat → Nat → Nat

/-- `iterations` from src/main.rs (lines 39-45): dilation iteration count as
a function of the frame height. -/
def iterations (frame_height : Nat) : Nat :=
  if 720 ≤ frame_height then 5 else 3

/-- `max_range` from src/main.rs (lines 47-53): upper threshold bound (an
`f64` whose two possible values are the integers 30 and 80, represented
exactly in `ℚ`) as a function of the frame height. -/
def max_range (frame_height : Nat) : Rat :=
  if 720 ≤ frame_height then 30 else 80

/-- The OpenCV primitives used by `mask_text` and
`find_textarea_from_mask`, as abstract operations.  `inRange` takes the
source image and the lower and upper `Scalar` bounds; `dilate` takes the
source, the structuring element and the iteration count; `findContours`
returns the bounding rectangles of the external contours. -/
structure CvOps where
  cvtColorBGR2HSV : Image → Image
  inRange : Image → (Rat × Rat × Rat × Rat) → (Rat × Rat × Rat × Rat) → Image
  getStructuringElement : Nat × Nat → Image
  dilate : Image → Image → Nat → Image
  findContours : Image → List Rect

/-- `mask_text` from src/main.rs (lines 55-68): convert to HSV, threshold
the value channel between `Scalar(0,0,0,0)` and
`Scalar(0,0,max_range(rows),255)`, then dilate with a 5×3 `MORPH_RECT`
kernel for `iterations(rows)` iterations. -/
def mask_text (cv : CvOps) (image : Image) : Image :=
  let image_hsv := cv.cvtColorBGR2HSV image
  let image_mask := cv.inRange image_hsv (0, 0, 0, 0) (0, 0, max_range image.rows, 255)
  let kernel := cv.getStructuringElement (5, 3)
  cv.dilate image_mask kernel (iterations image.rows)

/-- The rectangle filter inside `find_textarea_from_mask` (src/main.rs
lines 76-80): the two nested `if`s forming a four-way conjunction.
Division is Rust `i32` division on non-negative values, i.e. `Nat`
division. -/
def textarea_pred (image : Image) (rect : Rect) : Bool :=
  decide (rect.height < rect.width) && decide (image.rows / 72 < rect.height) &&
  decide (rect.width / rect.height < 15) && decide (rect.width < image.cols / 2)

/-- `find_textarea_from_mask` from src/main.rs (lines 70-83): bounding
rectangles of the external contours of the mask, kept when they pass
`textarea_pred`.  `find_contours`/`bounding_rect` are the external
parameter `findContours`. -/
def find_textarea_from_mask (findContours : Image → List Rect) (image : Image) : List Rect :=
  (findContours image).filter (textarea_pred image)

/-- `Mat::roi`: the view of `image` delimited by `area` (src/main.rs
line 133). -/
def roiView (image : Image) (area : Rect) : Image :=
  { rows := area.height, cols := area.width, channels := image.channels,
    data := fun i j c => image.data (area.y + i) (area.x + j) c }

/-- `scan_image` from src/main.rs (lines 85-94): feed the region image to
the engine; a failing `get_utf8_text` becomes `TessGetTextError`.  The
engine is the abstract parameter `tess`. -/
def scan_image (tess : Image → Option RStr) (image : Image) : Except MaskMyNameError RStr :=
  match tess image with
  | some text => Except.ok text
  | none => Except.error MaskMyNameError.TessGetTextError

/-- `masking_bar` from src/main.rs (lines 96-101): a `Mat` with the ROI's
rows, columns and type, filled with `Scalar::new(255., 255., 255., 255.)`,
i.e. every byte of every channel is 255.  The `Err` branch of the source
models an OpenCV allocation failure, which has no counterpart in this
embedding, so the function is total here. -/
def masking_bar (roi : Image) : Image :=
  { rows := roi.rows, cols := roi.cols, channels := roi.channels,
    data := fun _ _ _ => 255 }

/-- Whether pixel `(i, j)` (row, column) lies inside rectangle `area`. -/
def inRect (area : Rect) (i j : Nat) : Bool :=
  decide (area.y ≤ i) && decide (i < area.y + area.height) &&
  decide (area.x ≤ j) && decide (j < area.x + area.width)

/-- The redaction step of `mask_my_name` (src/main.rs line 140):
`masking_bar(&roi)?.copy_to(&mut roi)` — copy the bar into the ROI view,
i.e. overwrite exactly the pixels inside `area` with the bar's bytes. -/
def redact (image : Image) (area : Rect) : Image :=
  { image with data := fun i j c =>
      if inRect area i j then
        (masking_bar (roiView image area)).data (i - area.y) (j - area.x) c
      else image.data i j c }

/-- Rust `to_lowercase` on one scalar value, modelled on the ASCII range:
the letters A-Z (65-90) map to a-z (97-122); everything else is fixed. -/
def to_lowercase (c : Nat) : Nat :=
  if 65 ≤ c ∧ c ≤ 90 then c + 32 else c

/-- Rust `String::to_lowercase`, scalar by scalar. -/
def str_to_lowercase (s : RStr) : RStr :=
  s.map to_lowercase

/-- Rust `target.replace("_", " ")` on one scalar: underscore (95) becomes
space (32). -/
def replace_underscore (c : Nat) : Nat :=
  if c = 95 then 32 else c

/-- `supplement_target_string` from src/main.rs (lines 111-123): when the
target contains an underscore, the lower-cased original plus the
lower-cased underscore-to-space variant; otherwise just the lower-cased
original. -/
def supplement_target_string (target : RStr) : List RStr :=
  if 95 ∈ target then
    [str_to_lowercase target, str_to_lowercase (target.map replace_underscore)]
  else
    [str_to_lowercase target]

/-- The normalisation applied to recognised text in `mask_my_name`
(src/main.rs line 137): `to_lowercase().replace(".", "").replace(",", "")`
— lower-case, then drop every period (46), then every comma (44). -/
def normalize_text (text : RStr) : RStr :=
  ((text.map to_lowercase).filter (fun c => c != 46)).filter (fun c => c != 44)

/-- The match test in `mask_my_name` (src/main.rs line 138):
`strings.iter().any(|s| picked.contains(s))` — some candidate string is a
contiguous substring of the normalised recognised text. -/
def matches_target (strings : List RStr) (picked : RStr) : Bool :=
  strings.any (fun s => decide (s <:+: picked))

/-- The per-region loop of `mask_my_name` (src/main.rs lines 132-149),
with the running image and the `success` flag made explicit.  Each step
takes the ROI of the current image (`roi.copy_to(&mut target_image)`),
scans it, and on a match sets `success` and paints the bar over the ROI;
a scan failure aborts the whole loop with that error.  After the last
region, `success` decides between `Ok(image)` and `NoMatchingString`. -/
def mask_my_name_loop (engine : Image → Option RStr) (strings : List RStr)
    (image : Image) (success : Bool) : List Rect → Except MaskMyNameError Image
  | [] => if success then Except.ok image else Except.error MaskMyNameError.NoMatchingString
  | area :: rest =>
    match scan_image engine (roiView image area) with
    | Except.ok text =>
      if matches_target strings (normalize_text text) then
        mask_my_name_loop engine strings (redact image area) true rest
      else
        mask_my_name_loop engine strings image success rest
    | Except.error e => Except.error e

/-- `mask_my_name` from src/main.rs (lines 125-153).  `tess` is the result
of `init_tess`: `none` models a failed initialisation (`TessInitError`);
the image has already been loaded (a load failure panics in the source and
never reaches this function's `Result`). -/
def mask_my_name (cv : CvOps) (tess : Option (Image → Option RStr))
    (image : Image) (target_string : RStr) : Except MaskMyNameError Image :=
  let strings := supplement_target_string target_string
  match tess with
  | some engine =>
    mask_my_name_loop engine strings image false
      (find_textarea_from_mask cv.findContours (mask_text cv image))
  | none => Except.error MaskMyNameError.TessInitError

/-- A 100×100 3-channel all-zero (black) image, used as a concrete test
fixture. -/
def img100 : Image :=
  { rows := 100, cols := 100, channels := 3, data := fun _ _ _ => 0 }

/-- A 720×1280 3-channel all-zero image. -/
def img720 : Image :=
  { rows := 720, cols := 1280, channels := 3, data := fun _ _ _ => 0 }

/-- A 10×3 rectangle at the origin; passes `textarea_pred` for `img100`. -/
def rect_a : Rect := { x := 0, y := 0, width := 10, height := 3 }

/-- A 12×4 rectangle at row 20; passes `textarea_pred` for `img100`. -/
def rect_b : Rect := { x := 0, y := 20, width := 12, height := 4 }

/-- A 12×4 rectangle at row 40; passes `textarea_pred` for `img100`. -/
def rect_c : Rect := { x := 0, y := 40, width := 12, height := 4 }

/-- Concrete OpenCV operations for the test fixtures: colour conversion,
thresholding and dilation leave the image unchanged and the external
contours of any mask have bounding rectangles `[rect_a, rect_b, rect_c]`. -/
def cvW : CvOps :=
  { cvtColorBGR2HSV := fun image => image
    inRange := fun image _ _ => image
    getStructuringElement := fun _ => img100
    dilate := fun image _ _ => image
    findContours := fun _ => [rect_a, rect_b, rect_c] }

/-- A concrete engine that fails exactly on ROIs of height 4 (`rect_b`,
`rect_c`) and reads the empty string elsewhere. -/
def engineFailH4 : Image → Option RStr :=
  fun image => if image.rows = 4 then none else some []

/-- A concrete engine that reads "a" on ROIs of height 3 and the empty
string elsewhere. -/
def engineReadA : Image → Option RStr :=
  fun image => some (if image.rows = 3 then [97] else [])

/-- The rectangle-level view of `engineReadA`: what it answers on any ROI
of the given rectangle. -/
def engineReadARect : Rect → Option RStr :=
  fun rect => some (if rect.height = 3 then [97] else [])

/-- A concrete engine that reads "a" on every region of every image. -/
def engineAlwaysA : Image → Option RStr :=
  fun _ => some [97]

/-- Lower-casing one scalar twice is the same as once: A-Z maps into
a-z, which is outside A-Z. -/
theorem to_lowercase_idem (c : Nat) : to_lowercase (to_lowercase c) = to_lowercase c := by
  simp only [to_lowercase]
  split_ifs <;> omega

/-- Lower-casing commutes with the underscore-to-space substitution:
neither 95 nor 32 is an upper-case letter, and lower-casing never
produces 95. -/
theorem lower_replace_comm (c : Nat) :
    to_lowercase (replace_underscore c) = replace_underscore (to_lowercase c) := by
  simp only [to_lowercase, replace_underscore]
  split_ifs <;> omega

/-- C1: the claim says matched regions are overwritten with a uniform
opaque BLACK bar.  The code's `masking_bar` fills with
`Scalar::new(255., 255., 255., 255.)`, so every byte of every channel of a
redacted pixel becomes 255 — an opaque WHITE bar, not black (0) — even
though the source's own error strings call it a "black bar".  Evaluated at
a concrete all-black 100×100 image and the region `rect_b`. -/
theorem C1_masking_bar_is_white_not_black :
    (masking_bar (roiView img100 rect_b)).data 0 0 0 = 255 ∧
    (redact img100 rect_b).data 20 0 0 = 255 ∧
    (redact img100 rect_b).data 20 0 1 = 255 ∧
    (redact img100 rect_b).data 20 0 2 = 255 ∧
    img100.data 20 0 0 = 0 ∧ (255 : Nat) ≠ 0 := by
  decide

/-- C2: a rectangle is in the output of `find_textarea_from_mask` exactly
when it is the bounding rectangle of an external contour and satisfies all
four conditions: height < width, height > rows / 72, width / height < 15,
and width < cols / 2 (integer division, as in the i32 source). -/
theorem C2_textarea_filter_characterisation
    (findContours : Image → List Rect) (image : Image) (rect : Rect) :
    rect ∈ find_textarea_from_mask findContours image ↔
      rect ∈ findContours image ∧ rect.height < rect.width ∧
      image.rows / 72 < rect.height ∧ rect.width / rect.height < 15 ∧
      rect.width < image.cols / 2 := by
  simp [find_textarea_from_mask, List.mem_filter, textarea_pred, Bool.and_eq_true,
    decide_eq_true_eq, and_assoc]

/-- C3: a region matches exactly when some candidate string derived from
the target is a contiguous substring of the recognised text after
lower-casing and removing every period and comma; the second part is a
concrete proper-substring match ("a" inside "bac"), showing exact equality
is not required. -/
theorem C3_match_iff_substring (target text : RStr) :
    (matches_target (supplement_target_string target) (normalize_text text) = true ↔
      ∃ s ∈ supplement_target_string target, s <:+: normalize_text text) ∧
    (matches_target [[97]] [98, 97, 99] = true ∧ ([98, 97, 99] : RStr) ≠ [97]) := by
  refine ⟨?_, by decide, by decide⟩
  simp [matches_target, List.any_eq_true, decide_eq_true_eq]

/-- C4: the candidate set is exactly the lower-cased original plus, when
the target contains an underscore (95), the lower-cased original with
every underscore replaced by a space; evaluated at "john_doe" (yielding
"john_doe" and "john doe") and "johndoe" (yielding only "johndoe"). -/
theorem C4_supplement_target_characterisation (target : RStr) :
    (95 ∈ target → supplement_target_string target =
      [str_to_lowercase target, (str_to_lowercase target).map replace_underscore]) ∧
    (95 ∉ target → supplement_target_string target = [str_to_lowercase target]) ∧
    supplement_target_string [106, 111, 104, 110, 95, 100, 111, 101] =
      [[106, 111, 104, 110, 95, 100, 111, 101], [106, 111, 104, 110, 32, 100, 111, 101]] ∧
    supplement_target_string [106, 111, 104, 110, 100, 111, 101] =
      [[106, 111, 104, 110, 100, 111, 101]] := by
  refine ⟨fun h => ?_, fun h => ?_, by decide, by decide⟩
  · rw [supplement_target_string, if_pos h]
    have hmap : target.map (fun c => to_lowercase (replace_underscore c)) =
        target.map (fun c => replace_underscore (to_lowercase c)) :=
      List.map_congr_left (fun a _ => lower_replace_comm a)
    simp only [str_to_lowercase, List.map_map, Function.comp_def]
    rw [hmap]
  · rw [supplement_target_string, if_neg h]

/-- C4 witness: both branches of the characterisation applied at the
concrete targets "john_doe" and "johndoe". -/
theorem C4_supplement_target_witness :
    supplement_target_string [106, 111, 104, 110, 95, 100, 111, 101] =
      [str_to_lowercase [106, 111, 104, 110, 95, 100, 111, 101],
       (str_to_lowercase [106, 111, 104, 110, 95, 100, 111, 101]).map replace_underscore] ∧
    supplement_target_string [106, 111, 104, 110, 100, 111, 101] =
      [str_to_lowercase [106, 111, 104, 110, 100, 111, 101]] :=
  ⟨(C4_supplement_target_characterisation [106, 111, 104, 110, 95, 100, 111, 101]).1 (by decide),
   (C4_supplement_target_characterisation [106, 111, 104, 110, 100, 111, 101]).2.1 (by decide)⟩

/-- C7: the threshold upper bound is 30 for images of at least 720 rows and
80 otherwise, the dilation runs 5 iterations for at least 720 rows and 3
otherwise, and `mask_text` uses exactly these two height-determined
parameters together with the fixed 5×3 rectangular structuring element. -/
theorem C7_resolution_dependent_params (cv : CvOps) (image : Image) :
    (720 ≤ image.rows → max_range image.rows = 30 ∧ iterations image.rows = 5) ∧
    (image.rows < 720 → max_range image.rows = 80 ∧ iterations image.rows = 3) ∧
    mask_text cv image =
      cv.dilate
        (cv.inRange (cv.cvtColorBGR2HSV image) (0, 0, 0, 0)
          (0, 0, max_range image.rows, 255))
        (cv.getStructuringElement (5, 3)) (iterations image.rows) := by
  refine ⟨fun h => ?_, fun h => ?_, rfl⟩
  · simp [max_range, iterations, h]
  · simp [max_range, iterations, Nat.not_le_of_lt h]

/-- C7 witness: the parameters at a 720-row and at a 100-row image. -/
theorem C7_resolution_dependent_params_witness :
    (max_range 720 = 30 ∧ iterations 720 = 5) ∧
    (max_range 100 = 80 ∧ iterations 100 = 3) :=
  ⟨(C7_resolution_dependent_params cvW img720).1 (by decide),
   (C7_resolution_dependent_params cvW img100).2.1 (by decide)⟩

/-- C8: redaction preserves the image's dimensions and channel count, and
every pixel outside the redacted rectangle keeps its exact byte value in
every channel. -/
theorem C8_redact_is_localized (image : Image) (area : Rect) :
    ((redact image area).rows = image.rows ∧ (redact image area).cols = image.cols ∧
      (redact image area).channels = image.channels) ∧
    ∀ i j c, inRect area i j = false →
      (redact image area).data i j c = image.data i j c := by
  refine ⟨⟨rfl, rfl, rfl⟩, ?_⟩
  intro i j c h
  simp [redact, h]

/-- C8 witness: the pixel (0,0), outside `rect_b`, is unchanged by
redacting `rect_b` in the concrete 100×100 image. -/
theorem C8_redact_is_localized_witness :
    ((redact img100 rect_b).rows = img100.rows ∧
      (redact img100 rect_b).cols = img100.cols ∧
      (redact img100 rect_b).channels = img100.channels) ∧
    (redact img100 rect_b).data 0 0 0 = img100.data 0 0 0 :=
  ⟨(C8_redact_is_localized img100 rect_b).1,
   (C8_redact_is_localized img100 rect_b).2 0 0 0 (by decide)⟩

/-- C9: the normalisation applied to recognised text (lower-case, then
remove every period and comma) is idempotent. -/
theorem C9_normalize_idempotent (s : RStr) :
    normalize_text (normalize_text s) = normalize_text s := by
  have hmem : ∀ x ∈ normalize_text s,
      to_lowercase x = x ∧ (x != 46) = true ∧ (x != 44) = true := by
    intro x hx
    unfold normalize_text at hx
    rw [List.mem_filter] at hx
    obtain ⟨hx1, h44⟩ := hx
    rw [List.mem_filter] at hx1
    obtain ⟨hx2, h46⟩ := hx1
    rw [List.mem_map] at hx2
    obtain ⟨y, -, rfl⟩ := hx2
    exact ⟨to_lowercase_idem y, h46, h44⟩
  have h1 : (normalize_text s).map to_lowercase = normalize_text s := by
    calc (normalize_text s).map to_lowercase
        = (normalize_text s).map id := List.map_congr_left (fun x hx => (hmem x hx).1)
      _ = normalize_text s := List.map_id _
  have h2 : (normalize_text s).filter (fun c => c != 46) = normalize_text s :=
    List.filter_eq_self.mpr (fun x hx => (hmem x hx).2.1)
  have h3 : (normalize_text s).filter (fun c => c != 44) = normalize_text s :=
    List.filter_eq_self.mpr (fun x hx => (hmem x hx).2.2)
  show (((normalize_text s).map to_lowercase).filter (fun c => c != 46)).filter
      (fun c => c != 44) = normalize_text s
  rw [h1, h2, h3]

/-- Unfolding `mask_my_name` when engine initialisation succeeded: the
per-region loop over the extracted text areas, starting with no success. -/
theorem mask_my_name_some_engine (cv : CvOps) (engine : Image → Option RStr)
    (image : Image) (target : RStr) :
    mask_my_name cv (some engine) image target =
      mask_my_name_loop engine (supplement_target_string target) image false
        (find_textarea_from_mask cv.findContours (mask_text cv image)) := rfl

/-- One loop step when the scan succeeds with `text`. -/
theorem loop_cons_scan_ok {engine : Image → Option RStr} {image : Image}
    {area : Rect} {text : RStr} (strings : List RStr) (success : Bool)
    (rest : List Rect) (h : engine (roiView image area) = some text) :
    mask_my_name_loop engine strings image success (area :: rest) =
      if matches_target strings (normalize_text text) then
        mask_my_name_loop engine strings (redact image area) true rest
      else
        mask_my_name_loop engine strings image success rest := by
  simp [mask_my_name_loop, scan_image, h]

/-- One loop step when the scan fails: the loop ends with
`TessGetTextError`. -/
theorem loop_cons_scan_err {engine : Image → Option RStr} {image : Image}
    {area : Rect} (strings : List RStr) (success : Bool) (rest : List Rect)
    (h : engine (roiView image area) = none) :
    mask_my_name_loop engine strings image success (area :: rest) =
      Except.error MaskMyNameError.TessGetTextError := by
  simp [mask_my_name_loop, scan_image, h]

/-- If the engine succeeds on every region of `pre` and fails on `area`,
the loop over `pre ++ area :: post` ends with `TessGetTextError`, whatever
`post`, the running image and the success flag are. -/
theorem loop_fail_aborts (engine : Image → Option RStr) (strings : List RStr)
    (area : Rect) :
    ∀ (pre post : List Rect) (image : Image) (success : Bool),
    (∀ a ∈ pre, ∀ img' : Image, (engine (roiView img' a)).isSome = true) →
    (∀ img' : Image, engine (roiView img' area) = none) →
    mask_my_name_loop engine strings image success (pre ++ area :: post) =
      Except.error MaskMyNameError.TessGetTextError := by
  intro pre
  induction pre with
  | nil =>
    intro post image success _ hfail
    rw [List.nil_append, loop_cons_scan_err strings success post (hfail image)]
  | cons a pre ih =>
    intro post image success hpre hfail
    obtain ⟨t, ht⟩ := Option.isSome_iff_exists.mp (hpre a (List.mem_cons_self a pre) image)
    rw [List.cons_append, loop_cons_scan_ok strings success (pre ++ area :: post) ht]
    by_cases hm : matches_target strings (normalize_text t) = true
    · rw [if_pos hm]
      exact ih post (redact image a) true (fun b hb => hpre b (List.mem_cons_of_mem a hb)) hfail
    · rw [if_neg hm]
      exact ih post image success (fun b hb => hpre b (List.mem_cons_of_mem a hb)) hfail

/-- With the success flag already set and an engine that answers on every
region (with a region-determined answer), the loop always ends in
`Except.ok`. -/
theorem loop_true_ok (engine : Image → Option RStr) (engineR : Rect → Option RStr)
    (strings : List RStr) :
    ∀ (areas : List Rect) (image : Image),
    (∀ a ∈ areas, ∀ img' : Image, engine (roiView img' a) = engineR a) →
    (∀ a ∈ areas, (engineR a).isSome = true) →
    ∃ img', mask_my_name_loop engine strings image true areas = Except.ok img' := by
  intro areas
  induction areas with
  | nil => intro image _ _; exact ⟨image, rfl⟩
  | cons a rest ih =>
    intro image hdet hok
    obtain ⟨t, ht⟩ := Option.isSome_iff_exists.mp (hok a (List.mem_cons_self a rest))
    have hscan : engine (roiView image a) = some t :=
      (hdet a (List.mem_cons_self a rest) image).trans ht
    rw [loop_cons_scan_ok strings true rest hscan]
    by_cases hm : matches_target strings (normalize_text t) = true
    · rw [if_pos hm]
      exact ih (redact image a) (fun b hb img' => hdet b (List.mem_cons_of_mem a hb) img')
        (fun b hb => hok b (List.mem_cons_of_mem a hb))
    · rw [if_neg hm]
      exact ih image (fun b hb img' => hdet b (List.mem_cons_of_mem a hb) img')
        (fun b hb => hok b (List.mem_cons_of_mem a hb))

/-- With no prior success and an engine that answers on every region with
a region-determined answer, the loop ends in `Except.ok` exactly when some
region's answer matches. -/
theorem loop_false_ok_iff (engine : Image → Option RStr) (engineR : Rect → Option RStr)
    (strings : List RStr) :
    ∀ (areas : List Rect) (image : Image),
    (∀ a ∈ areas, ∀ img' : Image, engine (roiView img' a) = engineR a) →
    (∀ a ∈ areas, (engineR a).isSome = true) →
    ((∃ img', mask_my_name_loop engine strings image false areas = Except.ok img') ↔
      ∃ a ∈ areas, ∃ t, engineR a = some t ∧
        matches_target strings (normalize_text t) = true) := by
  intro areas
  induction areas with
  | nil =>
    intro image _ _
    constructor
    · rintro ⟨img', h⟩
      exact absurd h (by simp [mask_my_name_loop])
    · rintro ⟨a, ha, -⟩
      exact absurd ha (List.not_mem_nil a)
  | cons a rest ih =>
    intro image hdet hok
    obtain ⟨t, ht⟩ := Option.isSome_iff_exists.mp (hok a (List.mem_cons_self a rest))
    have hscan : engine (roiView image a) = some t :=
      (hdet a (List.mem_cons_self a rest) image).trans ht
    have hdet' := fun b hb (img' : Image) => hdet b (List.mem_cons_of_mem a hb) img'
    have hok' := fun b hb => hok b (List.mem_cons_of_mem a hb)
    rw [loop_cons_scan_ok strings false rest hscan]
    by_cases hm : matches_target strings (normalize_text t) = true
    · rw [if_pos hm]
      constructor
      · intro _
        exact ⟨a, List.mem_cons_self a rest, t, ht, hm⟩
      · intro _
        exact loop_true_ok engine engineR strings rest (redact image a) hdet' hok'
    · rw [if_neg hm, ih image hdet' hok']
      constructor
      · rintro ⟨b, hb, u, hu, hmu⟩
        exact ⟨b, List.mem_cons_of_mem a hb, u, hu, hmu⟩
      · rintro ⟨b, hb, u, hu, hmu⟩
        rcases List.mem_cons.mp hb with rfl | hb'
        · rw [ht] at hu
          obtain rfl : t = u := Option.some.inj hu
          exact absurd hmu hm
        · exact ⟨b, hb', u, hu, hmu⟩

/-- With no prior success, an engine that answers on every region with a
region-determined answer, and no region's answer matching, the loop ends
with `NoMatchingString`. -/
theorem loop_false_nomatch (engine : Image → Option RStr) (engineR : Rect → Option RStr)
    (strings : List RStr) :
    ∀ (areas : List Rect) (image : Image),
    (∀ a ∈ areas, ∀ img' : Image, engine (roiView img' a) = engineR a) →
    (∀ a ∈ areas, (engineR a).isSome = true) →
    (∀ a ∈ areas, ∀ t, engineR a = some t →
      matches_target strings (normalize_text t) = false) →
    mask_my_name_loop engine strings image false areas =
      Except.error MaskMyNameError.NoMatchingString := by
  intro areas
  induction areas with
  | nil => intro image _ _ _; rfl
  | cons a rest ih =>
    intro image hdet hok hnm
    obtain ⟨t, ht⟩ := Option.isSome_iff_exists.mp (hok a (List.mem_cons_self a rest))
    have hscan : engine (roiView image a) = some t :=
      (hdet a (List.mem_cons_self a rest) image).trans ht
    have hm := hnm a (List.mem_cons_self a rest) t ht
    rw [loop_cons_scan_ok strings false rest hscan, if_neg (by simp [hm])]
    exact ih image (fun b hb img' => hdet b (List.mem_cons_of_mem a hb) img')
      (fun b hb => hok b (List.mem_cons_of_mem a hb))
      (fun b hb => hnm b (List.mem_cons_of_mem a hb))

/-- The empty candidate string is a substring of every recognised text, so
it always matches. -/
theorem matches_empty_candidate (picked : RStr) : matches_target [[]] picked = true := by
  simp [matches_target]

/-- With the success flag set, an engine that answers on every region, and
the empty string as the only candidate, the loop redacts every region and
returns the fold of `redact` over the region list. -/
theorem loop_all_match_ok (engine : Image → Option RStr) :
    ∀ (areas : List Rect) (image : Image),
    (∀ a ∈ areas, ∀ img' : Image, (engine (roiView img' a)).isSome = true) →
    mask_my_name_loop engine [[]] image true areas =
      Except.ok (areas.foldl redact image) := by
  intro areas
  induction areas with
  | nil => intro image _; rfl
  | cons a rest ih =>
    intro image hok
    obtain ⟨t, ht⟩ := Option.isSome_iff_exists.mp (hok a (List.mem_cons_self a rest) image)
    rw [loop_cons_scan_ok [[]] true rest ht,
      if_pos (matches_empty_candidate (normalize_text t)), List.foldl_cons]
    exact ih (redact image a) (fun b hb img' => hok b (List.mem_cons_of_mem a hb) img')

/-- C5: if OCR fails on a candidate region (and succeeded on the regions
before it), the whole run ends immediately with `TessGetTextError`: the
result does not depend on the regions after the failing one, so no later
region is recognised, matched or redacted, and the failing region is not
skipped. -/
theorem C5_recognition_failure_aborts_run (cv : CvOps) (engine : Image → Option RStr)
    (image : Image) (target : RStr) (pre post : List Rect) (area : Rect)
    (hareas : find_textarea_from_mask cv.findContours (mask_text cv image) =
      pre ++ area :: post)
    (hpre : ∀ a ∈ pre, ∀ img' : Image, (engine (roiView img' a)).isSome = true)
    (hfail : ∀ img' : Image, engine (roiView img' area) = none) :
    mask_my_name cv (some engine) image target =
      Except.error MaskMyNameError.TessGetTextError ∧
    ∀ post', mask_my_name_loop engine (supplement_target_string target) image false
      (pre ++ area :: post') = Except.error MaskMyNameError.TessGetTextError := by
  constructor
  · rw [mask_my_name_some_engine, hareas]
    exact loop_fail_aborts engine _ area pre post image false hpre hfail
  · intro post'
    exact loop_fail_aborts engine _ area pre post' image false hpre hfail

/-- C5 witness: on the concrete fixtures the extractor yields
`[rect_a, rect_b, rect_c]`; the engine fails exactly on `rect_b`'s ROI
(height 4) and succeeds on `rect_a`'s, so the run errors with
`TessGetTextError` whatever follows `rect_b`. -/
theorem C5_recognition_failure_aborts_run_witness :
    mask_my_name cvW (some engineFailH4) img100 [] =
      Except.error MaskMyNameError.TessGetTextError ∧
    ∀ post', mask_my_name_loop engineFailH4 (supplement_target_string []) img100 false
      ([rect_a] ++ rect_b :: post') = Except.error MaskMyNameError.TessGetTextError :=
  C5_recognition_failure_aborts_run cvW engineFailH4 img100 [] [rect_a] [rect_c] rect_b
    rfl
    (by
      intro a ha img'
      rw [List.mem_singleton] at ha
      subst ha
      rfl)
    (fun img' => rfl)

/-- C6: when the engine answers on every extracted region (with a
region-determined answer), the run returns `Except.ok` with the mutated
image exactly when some region's recognised text matches a candidate, and
returns the distinct error `NoMatchingString` (carrying no image) when no
region matches. -/
theorem C6_terminal_outcome (cv : CvOps) (engine : Image → Option RStr)
    (engineR : Rect → Option RStr) (image : Image) (target : RStr) (areas : List Rect)
    (hareas : find_textarea_from_mask cv.findContours (mask_text cv image) = areas)
    (hdet : ∀ a ∈ areas, ∀ img' : Image, engine (roiView img' a) = engineR a)
    (hok : ∀ a ∈ areas, (engineR a).isSome = true) :
    ((∃ img', mask_my_name cv (some engine) image target = Except.ok img') ↔
      ∃ a ∈ areas, ∃ t, engineR a = some t ∧
        matches_target (supplement_target_string target) (normalize_text t) = true) ∧
    ((∀ a ∈ areas, ∀ t, engineR a = some t →
        matches_target (supplement_target_string target) (normalize_text t) = false) →
      mask_my_name cv (some engine) image target =
        Except.error MaskMyNameError.NoMatchingString) := by
  rw [mask_my_name_some_engine, hareas]
  exact ⟨loop_false_ok_iff engine engineR (supplement_target_string target) areas image hdet hok,
    fun hnm => loop_false_nomatch engine engineR (supplement_target_string target) areas image
      hdet hok hnm⟩

/-- C6 witness: the concrete engine reads "a" on ROIs of height 3 and ""
elsewhere, so with target "a" the extracted regions
`[rect_a, rect_b, rect_c]` contain a match and the equivalence applies. -/
theorem C6_terminal_outcome_witness :
    ((∃ img', mask_my_name cvW (some engineReadA) img100 [97] = Except.ok img') ↔
      ∃ a ∈ [rect_a, rect_b, rect_c], ∃ t, engineReadARect a = some t ∧
        matches_target (supplement_target_string [97]) (normalize_text t) = true) ∧
    ((∀ a ∈ [rect_a, rect_b, rect_c], ∀ t, engineReadARect a = some t →
        matches_target (supplement_target_string [97]) (normalize_text t) = false) →
      mask_my_name cvW (some engineReadA) img100 [97] =
        Except.error MaskMyNameError.NoMatchingString) :=
  C6_terminal_outcome cvW engineReadA engineReadARect img100 [97] [rect_a, rect_b, rect_c]
    rfl
    (by
      intro a ha img'
      simp only [List.mem_cons, List.not_mem_nil, or_false] at ha
      rcases ha with rfl | rfl | rfl <;> rfl)
    (by
      intro a ha
      simp only [List.mem_cons, List.not_mem_nil, or_false] at ha
      rcases ha with rfl | rfl | rfl <;> rfl)

/-- C10: with the empty target (the CLI default), the single candidate is
the empty string, which matches every recognised text; so when the engine
answers on every extracted region and at least one region exists, the run
succeeds and every extracted region is redacted (the final image is the
fold of `redact` over the region list). -/
theorem C10_empty_target_matches_everything (cv : CvOps) (engine : Image → Option RStr)
    (image : Image) (areas : List Rect)
    (hareas : find_textarea_from_mask cv.findContours (mask_text cv image) = areas)
    (hok : ∀ a ∈ areas, ∀ img' : Image, (engine (roiView img' a)).isSome = true)
    (hne : areas ≠ []) :
    supplement_target_string [] = [[]] ∧
    (∀ picked : RStr, matches_target (supplement_target_string []) picked = true) ∧
    mask_my_name cv (some engine) image [] = Except.ok (areas.foldl redact image) := by
  refine ⟨rfl, fun picked => matches_empty_candidate picked, ?_⟩
  rw [mask_my_name_some_engine, hareas]
  cases areas with
  | nil => exact absurd rfl hne
  | cons a rest =>
    obtain ⟨t, ht⟩ := Option.isSome_iff_exists.mp (hok a (List.mem_cons_self a rest) image)
    have hsupp : supplement_target_string ([] : RStr) = [[]] := rfl
    rw [hsupp, loop_cons_scan_ok [[]] false rest ht,
      if_pos (matches_empty_candidate (normalize_text t)), List.foldl_cons]
    exact loop_all_match_ok engine rest (redact image a)
      (fun b hb img' => hok b (List.mem_cons_of_mem a hb) img')

/-- C10 witness: an engine that always reads "a", the concrete fixtures,
and the nonempty extracted region list `[rect_a, rect_b, rect_c]`: the run
succeeds and redacts all three regions. -/
theorem C10_empty_target_matches_everything_witness :
    supplement_target_string [] = [[]] ∧
    (∀ picked : RStr, matches_target (supplement_target_string []) picked = true) ∧
    mask_my_name cvW (some engineAlwaysA) img100 [] =
      Except.ok ([rect_a, rect_b, rect_c].foldl redact img100) :=
  C10_empty_target_matches_everything cvW engineAlwaysA img100 [rect_a, rect_b, rect_c]
    rfl (fun a _ img' => rfl) (by simp)
